/-
Verification of the digital-library-go book catalog service.

Shallow embedding of:
  - internal/domain/book.go          (Book, Validate)
  - internal/usecase/book_usecase.go (BookUsecase: GetBookByID, isDuplicateID,
                                      CreateBook, UpdateBook, DeleteBook)
  - internal/delivery/http/background_task_handler.go (RunHeavyTask)
  - cmd/main.go                      (waitForTaskMiddleware)

The catalog (`u.books`, a Go slice) is modelled as `List Book`.  Go methods
that mutate the receiver and return an error are modelled as pure functions
returning `Option String × List Book`: the first component is the error
(`none` mirrors a nil error) and the second is the catalog after the call
(unchanged on the error paths, exactly as in the Go code, whose methods
return before touching `u.books` on those paths).
-/
import Mathlib

namespace DigitalLibrary

/-- `Book` from internal/domain/book.go.  Go `int` fields become `Int`
(no arithmetic is performed on them, so overflow never arises); Go strings
become Lean `String`, with `len` modelled by `String.length` (the ISBN
test-vectors of the spec are ASCII, where byte length and character length
coincide). -/
structure Book where
  ID     : Int
  Title  : String
  Author : String
  Year   : Int
  ISBN   : String
  deriving Repr, DecidableEq

/-- `(b *Book) Validate() error` from internal/domain/book.go.
`some msg` models a non-nil `errors.New(msg)`; `none` models `nil`. -/
def Validate (b : Book) : Option String :=
  if b.Title = "" then
    some "title must not be empty"
  else if b.Year < 1000 || b.Year > 2026 then
    some "year must be between 1000 and 2026"
  else if b.ISBN.length != 10 && b.ISBN.length != 13 then
    some "isbn must be 10 or 13 characters"
  else
    none

/-- Case analysis of `Validate`: each of the three checks, in source order,
with the exact message the Go code produces. -/
lemma Validate_cases (b : Book) :
    (b.Title = "" → Validate b = some "title must not be empty") ∧
    (b.Title ≠ "" → (b.Year < 1000 ∨ 2026 < b.Year) →
      Validate b = some "year must be between 1000 and 2026") ∧
    (b.Title ≠ "" → 1000 ≤ b.Year → b.Year ≤ 2026 →
      b.ISBN.length ≠ 10 → b.ISBN.length ≠ 13 →
      Validate b = some "isbn must be 10 or 13 characters") ∧
    (b.Title ≠ "" → 1000 ≤ b.Year → b.Year ≤ 2026 →
      (b.ISBN.length = 10 ∨ b.ISBN.length = 13) → Validate b = none) := by
  unfold Validate
  refine ⟨fun h => by simp [h], fun h hy => ?_, fun h h1 h2 h10 h13 => ?_,
    fun h h1 h2 h1013 => ?_⟩
  · rw [if_neg h, if_pos]
    simp only [Bool.or_eq_true, decide_eq_true_eq]
    omega
  · rw [if_neg h, if_neg, if_pos]
    · simp only [Bool.and_eq_true, bne_iff_ne, ne_eq]
      exact ⟨h10, h13⟩
    · simp only [Bool.or_eq_true, decide_eq_true_eq, not_or, not_lt]
      omega
  · rw [if_neg h, if_neg, if_neg]
    · simp only [Bool.and_eq_true, bne_iff_ne, ne_eq, not_and_or, not_not]
      tauto
    · simp only [Bool.or_eq_true, decide_eq_true_eq, not_or, not_lt]
      omega

/-- `(u *BookUsecase) GetBookByID(id int) (domain.Book, error)` from
internal/usecase/book_usecase.go: linear scan for the first entry with the
given ID.  `.error` models the `(domain.Book{}, errors.New msg)` return. -/
def GetBookByID : List Book → Int → Except String Book
  | [], _ => .error "book not found"
  | b :: rest, id => if b.ID = id then .ok b else GetBookByID rest id

/-- `(u *BookUsecase) isDuplicateID(id int) bool` from
internal/usecase/book_usecase.go: linear scan returning true on the first
entry with the given ID. -/
def isDuplicateID : List Book → Int → Bool
  | [], _ => false
  | b :: rest, id => if b.ID = id then true else isDuplicateID rest id

/-- `(u *BookUsecase) CreateBook(book domain.Book) error`: rejects a
duplicate ID, otherwise appends.  The pair is (returned error, catalog
after the call). -/
def CreateBook (books : List Book) (book : Book) : Option String × List Book :=
  if isDuplicateID books book.ID then
    (some "book with this ID already exists", books)
  else
    (none, books ++ [book])

/-- The loop of `(u *BookUsecase) UpdateBook(id int, updated domain.Book)`:
at the first entry whose ID matches, store `updated` with its ID forced to
`id`; `none` models falling off the loop. -/
def updateBookList : List Book → Int → Book → Option (List Book)
  | [], _, _ => none
  | b :: rest, id, updated =>
    if b.ID = id then some ({ updated with ID := id } :: rest)
    else (updateBookList rest id updated).map (b :: ·)

/-- `(u *BookUsecase) UpdateBook(id int, updated domain.Book) error`:
the pair is (returned error, catalog after the call). -/
def UpdateBook (books : List Book) (id : Int) (updated : Book) :
    Option String × List Book :=
  match updateBookList books id updated with
  | some bs => (none, bs)
  | none => (some "book not found", books)

/-- The loop of `(u *BookUsecase) DeleteBook(id int)`: at the first entry
whose ID matches, `append(u.books[:i], u.books[i+1:]...)` drops exactly that
entry; `none` models falling off the loop. -/
def deleteBookList : List Book → Int → Option (List Book)
  | [], _ => none
  | b :: rest, id =>
    if b.ID = id then some rest
    else (deleteBookList rest id).map (b :: ·)

/-- `(u *BookUsecase) DeleteBook(id int) error`: the pair is (returned
error, catalog after the call). -/
def DeleteBook (books : List Book) (id : Int) : Option String × List Book :=
  match deleteBookList books id with
  | some bs => (none, bs)
  | none => (some "book not found", books)

/-- `isDuplicateID` decides membership of the ID in the catalog. -/
lemma isDuplicateID_iff (books : List Book) (id : Int) :
    isDuplicateID books id = true ↔ ∃ b ∈ books, b.ID = id := by
  induction books with
  | nil => simp [isDuplicateID]
  | cons b rest ih =>
    by_cases h : b.ID = id <;> simp [isDuplicateID, h, ih]

/-- C3: `Validate b` succeeds (returns a nil error) iff the title is
non-empty, the year lies in [1000, 2026], and the ISBN length is exactly 10
or exactly 13; character content of the ISBN is never inspected. -/
theorem validate_accepts_iff (b : Book) :
    Validate b = none ↔
      b.Title ≠ "" ∧ 1000 ≤ b.Year ∧ b.Year ≤ 2026 ∧
        (b.ISBN.length = 10 ∨ b.ISBN.length = 13) := by
  obtain ⟨h1, h2, h3, h4⟩ := Validate_cases b
  constructor
  · intro hok
    by_cases ht : b.Title = ""
    · simp [h1 ht] at hok
    by_cases hy : b.Year < 1000 ∨ 2026 < b.Year
    · simp [h2 ht hy] at hok
    push_neg at hy
    by_cases hl : b.ISBN.length = 10 ∨ b.ISBN.length = 13
    · exact ⟨ht, hy.1, hy.2, hl⟩
    push_neg at hl
    simp [h3 ht hy.1 hy.2 hl.1 hl.2] at hok
  · rintro ⟨ht, hy1, hy2, hl⟩
    exact h4 ht hy1 hy2 hl

/-- Witness for C3: the boundary examples from the spec.  Years 1000 and
2026 are accepted, 999 and 2027 rejected; ISBN lengths 10 and 13 accepted,
9, 11, 12, 14 rejected — all via `validate_accepts_iff` at concrete books. -/
theorem validate_accepts_iff_witness :
    Validate ⟨1, "Dune", "Herbert", 1000, "0441172717"⟩ = none ∧
    Validate ⟨1, "Dune", "Herbert", 2026, "0441172717123"⟩ = none ∧
    Validate ⟨1, "Dune", "Herbert", 999, "0441172717"⟩ ≠ none ∧
    Validate ⟨1, "Dune", "Herbert", 2027, "0441172717"⟩ ≠ none ∧
    Validate ⟨1, "Dune", "Herbert", 1965, "044117271"⟩ ≠ none ∧
    Validate ⟨1, "Dune", "Herbert", 1965, "04411727171"⟩ ≠ none ∧
    Validate ⟨1, "Dune", "Herbert", 1965, "044117271712"⟩ ≠ none ∧
    Validate ⟨1, "Dune", "Herbert", 1965, "04411727171234"⟩ ≠ none ∧
    Validate ⟨1, "Dune", "Herbert", 1965, "??????????"⟩ = none := by
  refine ⟨(validate_accepts_iff _).mpr (by decide),
    (validate_accepts_iff _).mpr (by decide), ?_, ?_, ?_, ?_, ?_, ?_,
    (validate_accepts_iff _).mpr (by decide)⟩ <;>
    · intro h
      have := (validate_accepts_iff _).mp h
      revert this
      decide

/-- C4 counterexample: the claim names the error strings "year out of range"
and "isbn invalid length", but at concrete out-of-range inputs the code
produces "year must be between 1000 and 2026" and
"isbn must be 10 or 13 characters" instead. -/
theorem validate_messages_counterexample :
    Validate ⟨2, "X", "Y", 2030, "1234567890"⟩ ≠ some "year out of range" ∧
    Validate ⟨2, "X", "Y", 2020, "123456789"⟩ ≠ some "isbn invalid length" := by
  constructor <;> decide

/-- C4 (amended): an empty title fails with "title must not be empty"; a
year outside [1000, 2026] fails with "year must be between 1000 and 2026";
an ISBN whose length is not 10 or 13 fails with
"isbn must be 10 or 13 characters". -/
theorem validate_error_messages (b : Book) :
    (b.Title = "" → Validate b = some "title must not be empty") ∧
    (b.Title ≠ "" → (b.Year < 1000 ∨ 2026 < b.Year) →
      Validate b = some "year must be between 1000 and 2026") ∧
    (b.Title ≠ "" → 1000 ≤ b.Year → b.Year ≤ 2026 →
      b.ISBN.length ≠ 10 → b.ISBN.length ≠ 13 →
      Validate b = some "isbn must be 10 or 13 characters") :=
  ⟨(Validate_cases b).1, (Validate_cases b).2.1, (Validate_cases b).2.2.1⟩

/-- Witness for C4's amended theorem: each of the three error messages
observed at a concrete book. -/
theorem validate_error_messages_witness :
    Validate ⟨1, "", "A", 1500, "1234567890"⟩ = some "title must not be empty" ∧
    Validate ⟨2, "X", "Y", 2030, "1234567890"⟩
      = some "year must be between 1000 and 2026" ∧
    Validate ⟨3, "X", "Y", 2020, "123456789"⟩
      = some "isbn must be 10 or 13 characters" :=
  ⟨(validate_error_messages _).1 rfl,
   (validate_error_messages ⟨2, "X", "Y", 2030, "1234567890"⟩).2.1
     (by decide) (by decide),
   (validate_error_messages ⟨3, "X", "Y", 2020, "123456789"⟩).2.2
     (by decide) (by decide) (by decide) (by decide) (by decide)⟩

/-- C10: when several constraints fail at once, `Validate` reports the error
of the first failing check in source order (title, then year, then ISBN):
an empty title wins over a bad year, and a bad year wins over a bad ISBN. -/
theorem validate_first_failing_check (b : Book) :
    (b.Title = "" → (b.Year < 1000 ∨ 2026 < b.Year) →
      Validate b = some "title must not be empty") ∧
    (b.Title ≠ "" → (b.Year < 1000 ∨ 2026 < b.Year) →
      b.ISBN.length ≠ 10 → b.ISBN.length ≠ 13 →
      Validate b = some "year must be between 1000 and 2026") :=
  ⟨fun ht _ => (Validate_cases b).1 ht,
   fun ht hy _ _ => (Validate_cases b).2.1 ht hy⟩

/-- Witness for C10: a book with an empty title and year 3000 fails with the
title message, and a book with a bad year and a bad ISBN fails with the year
message. -/
theorem validate_first_failing_check_witness :
    Validate ⟨1, "", "A", 3000, "123"⟩ = some "title must not be empty" ∧
    Validate ⟨2, "X", "Y", 3000, "123"⟩
      = some "year must be between 1000 and 2026" :=
  ⟨(validate_first_failing_check ⟨1, "", "A", 3000, "123"⟩).1 rfl
     (by decide),
   (validate_first_failing_check ⟨2, "X", "Y", 3000, "123"⟩).2
     (by decide) (by decide) (by decide) (by decide)⟩

/-- `GetBookByID` fails exactly when no entry carries the ID. -/
lemma getBookByID_eq_error_iff (books : List Book) (id : Int) :
    GetBookByID books id = .error "book not found" ↔ ∀ b ∈ books, b.ID ≠ id := by
  induction books with
  | nil => simp [GetBookByID]
  | cons b rest ih =>
    by_cases h : b.ID = id <;> simp [GetBookByID, h, ih]

/-- `GetBookByID` finds a freshly appended book when its ID was absent. -/
lemma getBookByID_append_fresh (books : List Book) (b : Book)
    (h : ∀ x ∈ books, x.ID ≠ b.ID) :
    GetBookByID (books ++ [b]) b.ID = .ok b := by
  induction books with
  | nil => simp [GetBookByID]
  | cons x rest ih =>
    have hx : x.ID ≠ b.ID := h x (List.mem_cons_self x rest)
    simpa [GetBookByID, hx] using ih fun y hy => h y (List.mem_cons_of_mem x hy)

/-- `updateBookList` falls off the loop exactly when no entry matches. -/
lemma updateBookList_eq_none_iff (books : List Book) (id : Int) (u : Book) :
    updateBookList books id u = none ↔ ∀ b ∈ books, b.ID ≠ id := by
  induction books with
  | nil => simp [updateBookList]
  | cons b rest ih =>
    by_cases h : b.ID = id <;> simp [updateBookList, h, ih]

/-- When a matching entry exists, `updateBookList` replaces the first match
in place, forcing the stored ID. -/
lemma updateBookList_found (books : List Book) (id : Int) (u : Book)
    (h : ∃ b ∈ books, b.ID = id) :
    ∃ l1 b l2, books = l1 ++ b :: l2 ∧ b.ID = id ∧
      updateBookList books id u = some (l1 ++ { u with ID := id } :: l2) := by
  induction books with
  | nil => simp at h
  | cons x rest ih =>
    by_cases hx : x.ID = id
    · exact ⟨[], x, rest, rfl, hx, by simp [updateBookList, hx]⟩
    · obtain ⟨b, hb, hbid⟩ := h
      rcases List.mem_cons.mp hb with rfl | hb
      · exact absurd hbid hx
      obtain ⟨l1, b', l2, hsplit, hid, heq⟩ := ih ⟨b, hb, hbid⟩
      exact ⟨x :: l1, b', l2, by simp [hsplit], hid,
        by simp [updateBookList, hx, heq]⟩

/-- `deleteBookList` falls off the loop exactly when no entry matches. -/
lemma deleteBookList_eq_none_iff (books : List Book) (id : Int) :
    deleteBookList books id = none ↔ ∀ b ∈ books, b.ID ≠ id := by
  induction books with
  | nil => simp [deleteBookList]
  | cons b rest ih =>
    by_cases h : b.ID = id <;> simp [deleteBookList, h, ih]

/-- When a matching entry exists, `deleteBookList` drops the first match and
keeps everything else in order. -/
lemma deleteBookList_found (books : List Book) (id : Int)
    (h : ∃ b ∈ books, b.ID = id) :
    ∃ l1 b l2, books = l1 ++ b :: l2 ∧ b.ID = id ∧
      deleteBookList books id = some (l1 ++ l2) := by
  induction books with
  | nil => simp at h
  | cons x rest ih =>
    by_cases hx : x.ID = id
    · exact ⟨[], x, rest, rfl, hx, by simp [deleteBookList, hx]⟩
    · obtain ⟨b, hb, hbid⟩ := h
      rcases List.mem_cons.mp hb with rfl | hb
      · exact absurd hbid hx
      obtain ⟨l1, b', l2, hsplit, hid, heq⟩ := ih ⟨b, hb, hbid⟩
      exact ⟨x :: l1, b', l2, by simp [hsplit], hid,
        by simp [deleteBookList, hx, heq]⟩

/-- `CreateBook` appends when the book's ID is fresh. -/
lemma createBook_fresh (books : List Book) (book : Book)
    (h : ∀ b ∈ books, b.ID ≠ book.ID) :
    CreateBook books book = (none, books ++ [book]) := by
  have hd : isDuplicateID books book.ID = false := by
    rw [Bool.eq_false_iff]
    intro hc
    obtain ⟨b, hb, hbid⟩ := (isDuplicateID_iff books book.ID).mp hc
    exact h b hb hbid
  simp [CreateBook, hd]

/-- C5: `CreateBook` rejects a book whose ID is already present with the
duplicate-ID error and leaves the catalog unchanged; otherwise it succeeds
and the new catalog is the old one with the book appended at the end. -/
theorem createBook_spec (books : List Book) (book : Book) :
    ((∃ b ∈ books, b.ID = book.ID) →
      CreateBook books book = (some "book with this ID already exists", books)) ∧
    ((∀ b ∈ books, b.ID ≠ book.ID) →
      CreateBook books book = (none, books ++ [book])) := by
  constructor
  · intro h
    have hd : isDuplicateID books book.ID = true :=
      (isDuplicateID_iff books book.ID).mpr h
    simp [CreateBook, hd]
  · exact createBook_fresh books book

/-- Witness for C5: with `{ID := 1}` already stored, creating another book
with ID 1 fails and leaves the catalog unchanged; creating ID 2 appends. -/
theorem createBook_spec_witness :
    CreateBook [⟨1, "Dune", "Herbert", 1965, "0441172717"⟩]
        ⟨1, "Other", "B", 2000, "1234567890"⟩
      = (some "book with this ID already exists",
         [⟨1, "Dune", "Herbert", 1965, "0441172717"⟩]) ∧
    CreateBook [⟨1, "Dune", "Herbert", 1965, "0441172717"⟩]
        ⟨2, "Other", "B", 2000, "1234567890"⟩
      = (none, [⟨1, "Dune", "Herbert", 1965, "0441172717"⟩,
                ⟨2, "Other", "B", 2000, "1234567890"⟩]) :=
  ⟨(createBook_spec _ _).1 (by decide), (createBook_spec _ _).2 (by decide)⟩

/-- C6: `UpdateBook` on an absent ID fails with not-found and leaves the
catalog unchanged; on a present ID it succeeds, replaces that entry
wholesale by the new book with its ID forced to `id`, and keeps every other
entry and the order unchanged. -/
theorem updateBook_spec (books : List Book) (id : Int) (nb : Book) :
    ((∀ b ∈ books, b.ID ≠ id) →
      UpdateBook books id nb = (some "book not found", books)) ∧
    ((∃ b ∈ books, b.ID = id) →
      ∃ l1 b l2, books = l1 ++ b :: l2 ∧ b.ID = id ∧
        UpdateBook books id nb = (none, l1 ++ { nb with ID := id } :: l2)) := by
  constructor
  · intro h
    have hn := (updateBookList_eq_none_iff books id nb).mpr h
    simp [UpdateBook, hn]
  · intro h
    obtain ⟨l1, b, l2, hsplit, hid, heq⟩ := updateBookList_found books id nb h
    exact ⟨l1, b, l2, hsplit, hid, by simp [UpdateBook, heq]⟩

/-- Witness for C6: updating absent ID 9 fails and changes nothing;
updating ID 1 with a book that carries ID 7 stores it under ID 1. -/
theorem updateBook_spec_witness :
    UpdateBook [⟨1, "Dune", "Herbert", 1965, "0441172717"⟩] 9
        ⟨7, "New", "N", 2000, "1234567890"⟩
      = (some "book not found", [⟨1, "Dune", "Herbert", 1965, "0441172717"⟩]) ∧
    (∃ l1 b l2,
      [(⟨1, "Dune", "Herbert", 1965, "0441172717"⟩ : Book)] = l1 ++ b :: l2 ∧
      b.ID = 1 ∧
      UpdateBook [⟨1, "Dune", "Herbert", 1965, "0441172717"⟩] 1
          ⟨7, "New", "N", 2000, "1234567890"⟩
        = (none, l1 ++ { (⟨7, "New", "N", 2000, "1234567890"⟩ : Book) with
            ID := 1 } :: l2)) :=
  ⟨(updateBook_spec _ _ _).1 (by decide),
   (updateBook_spec [⟨1, "Dune", "Herbert", 1965, "0441172717"⟩] 1
      ⟨7, "New", "N", 2000, "1234567890"⟩).2 (by decide)⟩

/-- C7: `DeleteBook` on a catalog with pairwise-distinct IDs: if an entry
carries `id`, it succeeds, removes exactly that entry keeping the rest in
order, and a subsequent `GetBookByID id` fails with not-found; if no entry
carries `id`, it fails with not-found and leaves the catalog unchanged. -/
theorem deleteBook_spec (books : List Book) (id : Int)
    (hnd : (books.map Book.ID).Nodup) :
    ((∀ b ∈ books, b.ID ≠ id) →
      DeleteBook books id = (some "book not found", books)) ∧
    ((∃ b ∈ books, b.ID = id) →
      ∃ l1 b l2, books = l1 ++ b :: l2 ∧ b.ID = id ∧
        DeleteBook books id = (none, l1 ++ l2) ∧
        GetBookByID (l1 ++ l2) id = .error "book not found") := by
  constructor
  · intro h
    have hn := (deleteBookList_eq_none_iff books id).mpr h
    simp [DeleteBook, hn]
  · intro h
    obtain ⟨l1, b, l2, hsplit, hid, heq⟩ := deleteBookList_found books id h
    refine ⟨l1, b, l2, hsplit, hid, by simp [DeleteBook, heq], ?_⟩
    rw [getBookByID_eq_error_iff]
    subst hsplit
    subst hid
    intro x hx hxid
    simp only [List.map_append, List.map_cons, List.nodup_append,
      List.nodup_cons] at hnd
    rcases List.mem_append.mp hx with hx1 | hx2
    · exact hnd.2.2 (hxid ▸ List.mem_map_of_mem Book.ID hx1)
        (List.mem_cons_self _ _)
    · exact hnd.2.1.1 (hxid ▸ List.mem_map_of_mem Book.ID hx2)

/-- Witness for C7: on the two-entry catalog [ID 1, ID 2], deleting absent
ID 9 fails and changes nothing, and deleting ID 1 removes that entry with a
follow-up lookup of ID 1 failing. -/
theorem deleteBook_spec_witness :
    DeleteBook [⟨1, "Dune", "Herbert", 1965, "0441172717"⟩,
        ⟨2, "Other", "B", 2000, "1234567890"⟩] 9
      = (some "book not found",
         [⟨1, "Dune", "Herbert", 1965, "0441172717"⟩,
          ⟨2, "Other", "B", 2000, "1234567890"⟩]) ∧
    (∃ l1 b l2,
      [(⟨1, "Dune", "Herbert", 1965, "0441172717"⟩ : Book),
       ⟨2, "Other", "B", 2000, "1234567890"⟩] = l1 ++ b :: l2 ∧
      b.ID = 1 ∧
      DeleteBook [⟨1, "Dune", "Herbert", 1965, "0441172717"⟩,
          ⟨2, "Other", "B", 2000, "1234567890"⟩] 1 = (none, l1 ++ l2) ∧
      GetBookByID (l1 ++ l2) 1 = .error "book not found") :=
  ⟨(deleteBook_spec _ _ (by decide)).1 (by decide),
   (deleteBook_spec [⟨1, "Dune", "Herbert", 1965, "0441172717"⟩,
      ⟨2, "Other", "B", 2000, "1234567890"⟩] 1 (by decide)).2 (by decide)⟩

/-- C8: creating a validated book whose ID is absent and then looking it up
by that ID succeeds and returns a book equal to it in all fields. -/
theorem create_then_get_roundtrip (books : List Book) (b : Book)
    (hv : Validate b = none) (hid : ∀ x ∈ books, x.ID ≠ b.ID) :
    (CreateBook books b).1 = none ∧
    GetBookByID (CreateBook books b).2 b.ID = .ok b := by
  rw [createBook_fresh books b hid]
  exact ⟨rfl, getBookByID_append_fresh books b hid⟩

/-- Witness for C8: the spec's Dune book, created into a one-entry catalog
that does not contain its ID, is returned unchanged by the follow-up get. -/
theorem create_then_get_roundtrip_witness :
    Validate ⟨1, "Dune", "Herbert", 1965, "0441172717"⟩ = none ∧
    (CreateBook [⟨2, "Other", "B", 2000, "1234567890"⟩]
        ⟨1, "Dune", "Herbert", 1965, "0441172717"⟩).1 = none ∧
    GetBookByID (CreateBook [⟨2, "Other", "B", 2000, "1234567890"⟩]
        ⟨1, "Dune", "Herbert", 1965, "0441172717"⟩).2 1
      = .ok ⟨1, "Dune", "Herbert", 1965, "0441172717"⟩ := by
  have h := create_then_get_roundtrip [⟨2, "Other", "B", 2000, "1234567890"⟩]
    ⟨1, "Dune", "Herbert", 1965, "0441172717"⟩ (by decide) (by decide)
  exact ⟨by decide, h.1, h.2⟩

/-- One call to the mutating usecase API, with arbitrary arguments. -/
inductive Op where
  | create (b : Book)
  | update (id : Int) (b : Book)
  | delete (id : Int)
  deriving Repr

/-- The catalog after one API call, successful or failed (the error value,
if any, is reported to the HTTP layer and does not affect the state). -/
def applyOp (books : List Book) : Op → List Book
  | .create b => (CreateBook books b).2
  | .update id b => (UpdateBook books id b).2
  | .delete id => (DeleteBook books id).2

/-- The catalog reached from the empty catalog of `NewBookUsecase` after a
finite sequence of API calls. -/
def runOps (ops : List Op) : List Book :=
  ops.foldl applyOp []

/-- A successful update leaves the list of stored IDs literally unchanged:
the replacement entry's ID is forced to the matched entry's ID. -/
lemma updateBookList_map_id (books : List Book) (id : Int) (u : Book)
    (bs : List Book) (h : updateBookList books id u = some bs) :
    bs.map Book.ID = books.map Book.ID := by
  induction books generalizing bs with
  | nil => simp [updateBookList] at h
  | cons b rest ih =>
    by_cases hb : b.ID = id
    · simp only [updateBookList, if_pos hb, Option.some.injEq] at h
      subst h
      simp [hb]
    · simp only [updateBookList, if_neg hb, Option.map_eq_some'] at h
      obtain ⟨bs', hbs', rfl⟩ := h
      simp [ih bs' hbs']

/-- A successful delete produces a sublist of the old catalog. -/
lemma deleteBookList_sublist (books : List Book) (id : Int)
    (bs : List Book) (h : deleteBookList books id = some bs) :
    bs.Sublist books := by
  induction books generalizing bs with
  | nil => simp [deleteBookList] at h
  | cons b rest ih =>
    by_cases hb : b.ID = id
    · simp only [deleteBookList, if_pos hb, Option.some.injEq] at h
      subst h
      exact List.sublist_cons_self b rest
    · simp only [deleteBookList, if_neg hb, Option.map_eq_some'] at h
      obtain ⟨bs', hbs', rfl⟩ := h
      exact (ih bs' hbs').cons₂ b

/-- Every single API call preserves pairwise-distinct stored IDs. -/
lemma applyOp_nodup (books : List Book) (op : Op)
    (h : (books.map Book.ID).Nodup) :
    ((applyOp books op).map Book.ID).Nodup := by
  cases op with
  | create b =>
    by_cases hd : isDuplicateID books b.ID
    · simpa [applyOp, CreateBook, hd] using h
    · have hb : b.ID ∉ books.map Book.ID := by
        intro hmem
        obtain ⟨x, hx, hxid⟩ := List.mem_map.mp hmem
        exact hd ((isDuplicateID_iff books b.ID).mpr ⟨x, hx, hxid⟩)
      simpa [applyOp, CreateBook, hd] using List.Nodup.append h
        (List.nodup_singleton b.ID) (by simpa using hb)
  | update id b =>
    cases heq : updateBookList books id b with
    | none => simpa [applyOp, UpdateBook, heq] using h
    | some bs =>
      have := updateBookList_map_id books id b bs heq
      simpa [applyOp, UpdateBook, heq, this] using h
  | delete id =>
    cases heq : deleteBookList books id with
    | none => simpa [applyOp, DeleteBook, heq] using h
    | some bs =>
      have hsub := (deleteBookList_sublist books id bs heq).map Book.ID
      simpa [applyOp, DeleteBook, heq] using h.sublist hsub

/-- C9: starting from the empty catalog, after any finite sequence of
create, update and delete calls (any arguments, successful or failed) the
stored IDs are pairwise distinct. -/
theorem runOps_ids_nodup (ops : List Op) :
    ((runOps ops).map Book.ID).Nodup := by
  suffices h : ∀ init : List Book, (init.map Book.ID).Nodup →
      ((ops.foldl applyOp init).map Book.ID).Nodup from
    h [] (by simp)
  induction ops with
  | nil => intro init hinit; simpa using hinit
  | cons op rest ih =>
    intro init hinit
    exact ih (applyOp init op) (applyOp_nodup init op hinit)

/-- The observable outcome of one `RunHeavyTask` call
(internal/delivery/http/background_task_handler.go): HTTP status, the JSON
body's single key and value, whether the fixed-duration simulated work
(`time.Sleep(8 * time.Second)`) was performed before responding, the flag
value while that work runs (`none` when no work runs), and the flag value
after the handler returns.  The handler's lock/unlock pairs make each flag
access a single atomic critical section; a single call is therefore a
sequential function of the flag value it observes. -/
structure TaskResult where
  status         : Nat
  bodyKey        : String
  bodyVal        : String
  performedWork  : Bool
  flagDuringWork : Option Bool
  flagAfter      : Bool
  deriving Repr, DecidableEq

/-- `(h *TaskHandler) RunHeavyTask(c *gin.Context)`: under the lock, an
already-true flag short-circuits to a 409 conflict without sleeping and
without writing the flag; otherwise the flag is set true, the simulated
work runs, the flag is unconditionally reset to false, and 200 is
returned. -/
def RunHeavyTask (taskRunning : Bool) : TaskResult :=
  if taskRunning then
    { status := 409, bodyKey := "error", bodyVal := "task already running",
      performedWork := false, flagDuringWork := none,
      flagAfter := taskRunning }
  else
    { status := 200, bodyKey := "message",
      bodyVal := "Task completed successfully",
      performedWork := true, flagDuringWork := some true, flagAfter := false }

/-- C1: with the guard Running, the task endpoint fails immediately with a
409 conflict (body `error: "task already running"`), performs no simulated
work, and leaves the flag true; with the guard Idle, it sets the flag to
true for the duration of the simulated work, unconditionally resets it to
false afterwards, and returns 200 with `message: "Task completed
successfully"`. -/
theorem runHeavyTask_state_machine :
    RunHeavyTask true =
      { status := 409, bodyKey := "error", bodyVal := "task already running",
        performedWork := false, flagDuringWork := none, flagAfter := true } ∧
    RunHeavyTask false =
      { status := 200, bodyKey := "message",
        bodyVal := "Task completed successfully",
        performedWork := true, flagDuringWork := some true,
        flagAfter := false } := by
  constructor <;> rfl

/-- One iteration of the `waitForTaskMiddleware` polling loop in
cmd/main.go observes the guard under the lock at poll index `k` of the
observation sequence `obs` (true = Running): if Running it sleeps
200 ms and re-polls at index `k + 1`, otherwise it breaks and lets the
handler proceed.  `some k` means the handler proceeds right after the poll
at index `k`; `none` means the gate is still polling after `fuel`
iterations — the loop has no other exit and produces no response of its
own, so a gated request is never rejected or failed. -/
def waitForTaskFrom (obs : Nat → Bool) : Nat → Nat → Option Nat
  | _, 0 => none
  | k, fuel + 1 =>
    if obs k then waitForTaskFrom obs (k + 1) fuel else some k

/-- `waitForTaskMiddleware()` from cmd/main.go: the polling loop started at
the first observation. -/
def waitForTaskMiddleware (obs : Nat → Bool) (fuel : Nat) : Option Nat :=
  waitForTaskFrom obs 0 fuel

/-- Unfolding `waitForTaskFrom` along the polling loop: a proceed decision
at index `m` means Idle was observed at `m` and Running at every poll since
the start index. -/
lemma waitForTaskFrom_some (obs : Nat → Bool) (k fuel m : Nat)
    (h : waitForTaskFrom obs k fuel = some m) :
    obs m = false ∧ k ≤ m ∧ ∀ j, k ≤ j → j < m → obs j = true := by
  induction fuel generalizing k with
  | zero => simp [waitForTaskFrom] at h
  | succ fuel ih =>
    by_cases hk : obs k
    · rw [waitForTaskFrom, if_pos hk] at h
      obtain ⟨hm, hkm, hall⟩ := ih (k + 1) h
      refine ⟨hm, by omega, fun j hj1 hj2 => ?_⟩
      rcases Nat.eq_or_lt_of_le hj1 with rfl | hj1
      · exact hk
      · exact hall j hj1 hj2
    · rw [waitForTaskFrom, if_neg hk] at h
      obtain rfl := Option.some.injEq _ _ ▸ h
      exact ⟨Bool.eq_false_iff.mpr hk, le_refl k,
        fun j hj1 hj2 => absurd (lt_of_le_of_lt hj1 hj2) (lt_irrefl k)⟩

/-- While every observation reads Running, the polling loop never exits. -/
lemma waitForTaskFrom_all_running (obs : Nat → Bool)
    (h : ∀ j, obs j = true) (k fuel : Nat) :
    waitForTaskFrom obs k fuel = none := by
  induction fuel generalizing k with
  | zero => rfl
  | succ fuel ih => rw [waitForTaskFrom, if_pos (h k)]; exact ih (k + 1)

/-- C2: the request gate lets a handler run only after an observation of
the guard reading Idle — if the gate proceeds at poll `m`, the guard read
Idle at `m` and Running at every earlier poll — and while the guard keeps
reading Running the gate only keeps polling: it never rejects or fails the
request, which is delayed until the guard clears. -/
theorem waitForTaskMiddleware_gate (obs : Nat → Bool) (fuel m : Nat) :
    (waitForTaskMiddleware obs fuel = some m →
      obs m = false ∧ ∀ j, j < m → obs j = true) ∧
    ((∀ j, obs j = true) → waitForTaskMiddleware obs fuel = none) := by
  constructor
  · intro h
    obtain ⟨hm, _, hall⟩ := waitForTaskFrom_some obs 0 fuel m h
    exact ⟨hm, fun j hj => hall j (Nat.zero_le j) hj⟩
  · intro h
    exact waitForTaskFrom_all_running obs h 0 fuel

/-- Witness for C2: with a guard that reads Running for the first two polls
and Idle from the third on, the gate proceeds exactly at poll 2; with a
guard that never clears, five polls still produce no exit and no error. -/
theorem waitForTaskMiddleware_gate_witness :
    ((fun j => decide (j < 2)) 2 = false ∧
      ∀ j, j < 2 → (fun j => decide (j < 2)) j = true) ∧
    waitForTaskMiddleware (fun _ => true) 5 = none :=
  ⟨(waitForTaskMiddleware_gate (fun j => decide (j < 2)) 5 2).1 rfl,
   (waitForTaskMiddleware_gate (fun _ => true) 5 0).2 (fun _ => rfl)⟩

end DigitalLibrary
